import Mathlib

/-! logrus-cloudwatchlogs: the token-chained append hook.

A shallow embedding of `hook.go`.  The remote log-stream service, the wall clock and
the byte sink of the writer hook are external; they are modelled by transition
functions on an arbitrary state type `σ`, so that every behaviour the hook can
observe (any sequence of responses, errors and clock readings) is covered.  Every
request the code issues is recorded, together with the answer it got, in `World.calls`.
-/

namespace LogrusCloudwatchlogs

/-! ## Values -/

/-- One Go byte. -/
abbrev Byte := Fin 256

/-- A Go byte slice, and equally the content of a Go string holding a log line: the
conversions `[]byte(s)` and `string(p)` copy the bytes unchanged. -/
abbrev Bytes := List Byte

/-- Go conversion `[]byte(line)`. -/
def bytesOf (line : Bytes) : Bytes := line

/-- Go conversion `string(p)`. -/
def stringOf (p : Bytes) : Bytes := p

/-- A non-nil Go `error` value; `msg` is what its `Error()` method returns. -/
structure GoError where
  msg : String
deriving DecidableEq, Repr

/-- The helper `aws.String`: a non-nil pointer to the value. -/
def aws_String {α : Type} (s : α) : Option α := some s

/-- The helper `aws.Int64`: a non-nil pointer to the value. -/
def aws_Int64 (v : Int) : Option Int := some v

/-! ## Signed 64-bit arithmetic and the constants of package `time` -/

/-- Reduction of a mathematical integer to the `int64` it wraps to. -/
def wrapInt64 (x : Int) : Int := (x + 2 ^ 63) % 2 ^ 64 - 2 ^ 63

/-- Go `a * b` on `int64`. -/
def int64Mul (a b : Int) : Int := wrapInt64 (a * b)

/-- Go `a / b` on `int64` (quotient truncated toward zero). -/
def int64Quo (a b : Int) : Int := wrapInt64 (Int.tdiv a b)

/-- Go standard library, `time.Nanosecond`: a `Duration` of 1. -/
def time_Nanosecond : Int := 1

/-- Go standard library, `time.Microsecond = 1000 * Nanosecond`. -/
def time_Microsecond : Int := 1000 * time_Nanosecond

/-- Go standard library, `time.Millisecond = 1000 * Microsecond`. -/
def time_Millisecond : Int := 1000 * time_Microsecond

/-- The timestamp expression of `Hook.Write`:
`int64(time.Nanosecond) * time.Now().UnixNano() / int64(time.Millisecond)`,
where `now` is the value read from the clock. -/
def timestampOf (now : Int) : Int :=
  int64Quo (int64Mul time_Nanosecond now) time_Millisecond

/-! ## Messages of the log-stream service (package `cloudwatchlogs`) -/

structure LogStream where
  LogStreamName : Option String
  UploadSequenceToken : Option String
deriving DecidableEq, Repr

structure DescribeLogStreamsInput where
  LogGroupName : Option String
  LogStreamNamePrefix : Option String
deriving DecidableEq, Repr

structure DescribeLogStreamsOutput where
  LogStreams : List LogStream
deriving DecidableEq, Repr

structure CreateLogStreamInput where
  LogGroupName : Option String
  LogStreamName : Option String
deriving DecidableEq, Repr

structure InputLogEvent where
  Message : Option Bytes
  Timestamp : Option Int
deriving DecidableEq, Repr

structure PutLogEventsInput where
  LogEvents : List InputLogEvent
  LogGroupName : Option String
  LogStreamName : Option String
  SequenceToken : Option String
deriving DecidableEq, Repr

structure PutLogEventsOutput where
  NextSequenceToken : Option String
deriving DecidableEq, Repr

/-- A call made to an external collaborator, with the answer received. -/
inductive Call where
  | describeLogStreams (inp : DescribeLogStreamsInput)
      (res : Except GoError DescribeLogStreamsOutput)
  | createLogStream (inp : CreateLogStreamInput) (err : Option GoError)
  | putLogEvents (inp : PutLogEventsInput) (res : Except GoError PutLogEventsOutput)
  | write (p : Bytes) (n : Int) (err : Option GoError)

/-- The external collaborators as seen from the hook: the three service operations
and the wall clock (`time.Now().UnixNano()`, an `int64`), each a transition on the
external state. -/
structure Env (σ : Type) where
  DescribeLogStreams : DescribeLogStreamsInput → σ → Except GoError DescribeLogStreamsOutput × σ
  CreateLogStream : CreateLogStreamInput → σ → Option GoError × σ
  PutLogEvents : PutLogEventsInput → σ → Except GoError PutLogEventsOutput × σ
  UnixNano : σ → Int × σ

/-- Everything outside the hook: the external state, the calls issued so far (oldest
first) and what was printed to standard error. -/
structure World (σ : Type) where
  remote : σ
  calls : List Call
  stderr : List String

/-! ## The hook -/

/-- The struct `Hook`.  Its field `svc` is the client handle; the service behind it
is the `Env` every operation takes. -/
structure Hook where
  groupName : String
  streamName : String
  nextSequenceToken : Option String
deriving DecidableEq, Repr

/-- A severity level of the logging facility (`logrus.Level`, an unsigned integer). -/
abbrev Level := Nat

def PanicLevel : Level := 0
def FatalLevel : Level := 1
def ErrorLevel : Level := 2
def WarnLevel : Level := 3
def InfoLevel : Level := 4
def DebugLevel : Level := 5

/-- A log entry of the logging facility: its level and the pair `entry.String()`
returns (the rendered line and an error, nil on success). -/
structure Entry where
  Level : Level
  rendered : Bytes × Option GoError

/-- `NewHook(groupName, streamName, cfg)`: returns the pair `(*Hook, error)`. -/
def NewHook {σ : Type} (env : Env σ) (groupName streamName : String) (w : World σ) :
    (Option Hook × Option GoError) × World σ :=
  let h : Hook := { groupName := groupName, streamName := streamName, nextSequenceToken := none }
  let inp : DescribeLogStreamsInput :=
    { LogGroupName := aws_String h.groupName, LogStreamNamePrefix := aws_String h.streamName }
  match env.DescribeLogStreams inp w.remote with
  | (Except.error err, s1) =>
    ((none, some err),
      { w with remote := s1, calls := w.calls ++ [Call.describeLogStreams inp (Except.error err)] })
  | (Except.ok resp, s1) =>
    let w1 : World σ :=
      { w with remote := s1, calls := w.calls ++ [Call.describeLogStreams inp (Except.ok resp)] }
    match resp.LogStreams with
    | first :: _ =>
      -- len(resp.LogStreams) > 0: grab the next sequence token of LogStreams[0]
      ((some { h with nextSequenceToken := first.UploadSequenceToken }, none), w1)
    | [] =>
      let cinp : CreateLogStreamInput :=
        { LogGroupName := aws_String groupName, LogStreamName := aws_String streamName }
      match env.CreateLogStream cinp s1 with
      | (some err, s2) =>
        ((none, some err),
          { w1 with remote := s2, calls := w1.calls ++ [Call.createLogStream cinp (some err)] })
      | (none, s2) =>
        ((some h, none),
          { w1 with remote := s2, calls := w1.calls ++ [Call.createLogStream cinp none] })

/-- The request `Hook.Write` builds for the bytes `p` when the clock reads `now`. -/
def Hook.params (h : Hook) (p : Bytes) (now : Int) : PutLogEventsInput :=
  { LogEvents := [{ Message := aws_String (stringOf p), Timestamp := aws_Int64 (timestampOf now) }]
    LogGroupName := aws_String h.groupName
    LogStreamName := aws_String h.streamName
    SequenceToken := h.nextSequenceToken }

/-- `(h *Hook) Write(p)`: returns `(n, err)` and the hook after the call. -/
def Hook.Write {σ : Type} (env : Env σ) (h : Hook) (p : Bytes) (w : World σ) :
    (Int × Option GoError) × Hook × World σ :=
  match env.UnixNano w.remote with
  | (now, s1) =>
    let params := h.params p now
    match env.PutLogEvents params s1 with
    | (Except.error err, s2) =>
      ((0, some err), h,
        { w with remote := s2, calls := w.calls ++ [Call.putLogEvents params (Except.error err)] })
    | (Except.ok resp, s2) =>
      (((p.length : Int), none), { h with nextSequenceToken := resp.NextSequenceToken },
        { w with remote := s2, calls := w.calls ++ [Call.putLogEvents params (Except.ok resp)] })

/-- `(h *Hook) Fire(entry)`: returns the error and the hook after the call. -/
def Hook.Fire {σ : Type} (env : Env σ) (h : Hook) (entry : Entry) (w : World σ) :
    Option GoError × Hook × World σ :=
  match entry.rendered with
  | (_, some err) =>
    (some err, h, { w with stderr := w.stderr ++ ["Unable to read entry, " ++ err.msg] })
  | (line, none) =>
    if entry.Level = PanicLevel ∨ entry.Level = FatalLevel ∨ entry.Level = ErrorLevel ∨
        entry.Level = WarnLevel ∨ entry.Level = InfoLevel ∨ entry.Level = DebugLevel then
      match Hook.Write env h (bytesOf line) w with
      | ((_, err), h1, w1) => (err, h1, w1)
    else
      (none, h, w)

/-- `(h *Hook) Levels()`. -/
def Hook.Levels (_h : Hook) : List Level :=
  [PanicLevel, FatalLevel, ErrorLevel, WarnLevel, InfoLevel, DebugLevel]

/-! ## The writer hook -/

/-- The struct `WriterHook`; its field `w` is an `io.Writer`, modelled by the effect
of its `Write` method on the external state and the pair `(n, err)` it returns. -/
structure WriterHook (σ : Type) where
  w : Bytes → σ → (Int × Option GoError) × σ

/-- `NewWriterHook(w)`. -/
def NewWriterHook {σ : Type} (w : Bytes → σ → (Int × Option GoError) × σ) : WriterHook σ :=
  { w := w }

/-- `(h *WriterHook) Fire(entry)`. -/
def WriterHook.Fire {σ : Type} (h : WriterHook σ) (entry : Entry) (w : World σ) :
    Option GoError × World σ :=
  match entry.rendered with
  | (_, some err) =>
    (some err, { w with stderr := w.stderr ++ ["Unable to read entry, " ++ err.msg] })
  | (line, none) =>
    match h.w (bytesOf line) w.remote with
    | ((n, err), s1) =>
      (err, { w with remote := s1, calls := w.calls ++ [Call.write (bytesOf line) n err] })

/-- `(h *WriterHook) Levels()`. -/
def WriterHook.Levels {σ : Type} (_h : WriterHook σ) : List Level :=
  [PanicLevel, FatalLevel, ErrorLevel, WarnLevel, InfoLevel, DebugLevel]

/-! ## Sequences of calls -/

/-- Successive calls `h.Write(p)` for the `p` of a list, through one hook instance;
returns the pair each call returned, the hook and the world at the end. -/
def writeAll {σ : Type} (env : Env σ) :
    Hook → World σ → List Bytes → List (Int × Option GoError) × Hook × World σ
  | h, w, [] => ([], h, w)
  | h, w, p :: ps =>
    match Hook.Write env h p w with
    | (r, h1, w1) =>
      match writeAll env h1 w1 ps with
      | (rs, h2, w2) => (r :: rs, h2, w2)

/-! ## A scripted service, for concrete runs -/

/-- An external state given by a script: the answer of the stream query, the answer of
the create call, the answers of the successive appends, and the clock. -/
structure Script where
  describe : Except GoError DescribeLogStreamsOutput
  create : Option GoError
  puts : List (Except GoError PutLogEventsOutput)
  clock : Int

/-- The service that answers as the script says; an append beyond the end of the
script fails, and each clock reading advances the clock by one nanosecond. -/
def scripted : Env Script where
  DescribeLogStreams := fun _ s => (s.describe, s)
  CreateLogStream := fun _ s => (s.create, s)
  PutLogEvents := fun _ s =>
    match s.puts with
    | [] => (Except.error { msg := "script exhausted" }, s)
    | r :: rest => (r, { s with puts := rest })
  UnixNano := fun s => (s.clock, { s with clock := s.clock + 1 })

/-- A world with nothing issued yet. -/
def World.start {σ : Type} (s : σ) : World σ := { remote := s, calls := [], stderr := [] }

/-- The hook for stream "app-1" of group "svc", with no stored token. -/
def freshHook : Hook := { groupName := "svc", streamName := "app-1", nextSequenceToken := none }

/-- A script in which the group has no stream, the create call succeeds and no append
is answered. -/
def emptyScript : Script :=
  { describe := Except.ok { LogStreams := [] }, create := none, puts := [], clock := 0 }

/-- The hook for stream "app-1" of group "svc" storing the token "tok1". -/
def chainedHook : Hook :=
  { groupName := "svc", streamName := "app-1", nextSequenceToken := some "tok1" }

/-- A script whose two appends succeed, the first answered with the token
"49f-token2", the second with no token. -/
def twoAppends : Script :=
  { describe := Except.ok { LogStreams := [] }
    create := none
    puts := [Except.ok { NextSequenceToken := some "49f-token2" },
             Except.ok { NextSequenceToken := none }]
    clock := 1700000000123456789 }

/-- A script whose append is rejected. -/
def rejectedAppend : Script :=
  { describe := Except.ok { LogStreams := [] }
    create := none
    puts := [Except.error { msg := "InvalidSequenceTokenException" }]
    clock := 1700000000123456789 }

/-- A script in which the group already holds two streams whose names start with
"app-1"; the first is "app-10". -/
def existingStreams : Script :=
  { describe := Except.ok { LogStreams :=
      [{ LogStreamName := some "app-10", UploadSequenceToken := some "tok-of-app-10" },
       { LogStreamName := some "app-1", UploadSequenceToken := some "tok-of-app-1" }] }
    create := none
    puts := []
    clock := 0 }

/-- A script whose stream query fails. -/
def queryFails : Script :=
  { describe := Except.error { msg := "ResourceNotFoundException" }
    create := none
    puts := []
    clock := 0 }

/-- A script whose stream query finds nothing and whose create call fails. -/
def createFails : Script :=
  { describe := Except.ok { LogStreams := [] }
    create := some { msg := "LimitExceededException" }
    puts := []
    clock := 0 }

/-- The bytes of "hello". -/
def hello : Bytes := [104, 101, 108, 108, 111]

/-- The bytes of "world". -/
def world : Bytes := [119, 111, 114, 108, 100]

/-- A byte sink that accepts everything written to it (the state counts the bytes). -/
def countingSink : Bytes → Nat → (Int × Option GoError) × Nat :=
  fun p s => (((p.length : Int), none), s + p.length)

/-! ## Helper lemmas -/

/-- The service's answer to the append that `h.Write(p)` makes in world `w`. -/
def putAnswer {σ : Type} (env : Env σ) (h : Hook) (p : Bytes) (w : World σ) :
    Except GoError PutLogEventsOutput :=
  (env.PutLogEvents (h.params p (env.UnixNano w.remote).1) (env.UnixNano w.remote).2).1

/-- The external state after the append that `h.Write(p)` makes in world `w`. -/
def putState {σ : Type} (env : Env σ) (h : Hook) (p : Bytes) (w : World σ) : σ :=
  (env.PutLogEvents (h.params p (env.UnixNano w.remote).1) (env.UnixNano w.remote).2).2

theorem Write_of_error {σ : Type} (env : Env σ) (h : Hook) (p : Bytes) (w : World σ)
    (e : GoError) (hfail : putAnswer env h p w = Except.error e) :
    Hook.Write env h p w =
      ((0, some e), h,
        { w with
          remote := putState env h p w
          calls := w.calls ++
            [Call.putLogEvents (h.params p (env.UnixNano w.remote).1) (Except.error e)] }) := by
  unfold putAnswer at hfail
  unfold Hook.Write putState
  rcases hU : env.UnixNano w.remote with ⟨now, s1⟩
  rw [hU] at hfail
  rcases hP : env.PutLogEvents (h.params p now) s1 with ⟨r, s2⟩
  rw [hP] at hfail
  simp only at hfail
  subst hfail
  simp [hP]

theorem Write_of_ok {σ : Type} (env : Env σ) (h : Hook) (p : Bytes) (w : World σ)
    (resp : PutLogEventsOutput) (hok : putAnswer env h p w = Except.ok resp) :
    Hook.Write env h p w =
      (((p.length : Int), none), { h with nextSequenceToken := resp.NextSequenceToken },
        { w with
          remote := putState env h p w
          calls := w.calls ++
            [Call.putLogEvents (h.params p (env.UnixNano w.remote).1) (Except.ok resp)] }) := by
  unfold putAnswer at hok
  unfold Hook.Write putState
  rcases hU : env.UnixNano w.remote with ⟨now, s1⟩
  rw [hU] at hok
  rcases hP : env.PutLogEvents (h.params p now) s1 with ⟨r, s2⟩
  rw [hP] at hok
  simp only at hok
  subst hok
  simp [hP]

/-- A call of `Write` returns a nil error exactly when the service accepted the append. -/
theorem Write_err_none_iff {σ : Type} (env : Env σ) (h : Hook) (p : Bytes) (w : World σ) :
    (Hook.Write env h p w).1.2 = none ↔ ∃ resp, putAnswer env h p w = Except.ok resp := by
  cases hA : putAnswer env h p w with
  | error e => rw [Write_of_error env h p w e hA]; simp
  | ok resp => rw [Write_of_ok env h p w resp hA]; simp

/-- An integer in the range of `int64` is its own reduction. -/
theorem wrapInt64_of_range (x : Int) (hlo : -(2 ^ 63) ≤ x) (hhi : x < 2 ^ 63) :
    wrapInt64 x = x := by
  unfold wrapInt64
  rw [Int.emod_eq_of_lt (by omega) (by omega)]
  omega

/-- The timestamp expression on a non-negative clock reading: no step wraps, and the
value is the quotient by one million. -/
theorem timestampOf_nonneg (n : Int) (h0 : 0 ≤ n) (h63 : n < 2 ^ 63) :
    timestampOf n = n / 1000000 := by
  have hq0 : 0 ≤ n / 1000000 := Int.ediv_nonneg h0 (by norm_num)
  have hq1 : n / 1000000 ≤ n := Int.ediv_le_self _ h0
  unfold timestampOf int64Quo int64Mul time_Millisecond time_Microsecond time_Nanosecond
  rw [one_mul, wrapInt64_of_range n (by omega) h63]
  norm_num
  rw [Int.tdiv_eq_ediv h0 (by norm_num)]
  exact wrapInt64_of_range _ (by omega) (by omega)

/-- Every call of `Write` issues one append, built from the hook and the clock reading. -/
theorem Write_calls {σ : Type} (env : Env σ) (h : Hook) (p : Bytes) (w : World σ) :
    (Hook.Write env h p w).2.2.calls =
      w.calls ++ [Call.putLogEvents (h.params p (env.UnixNano w.remote).1)
        (putAnswer env h p w)] := by
  cases hA : putAnswer env h p w with
  | error e => rw [Write_of_error env h p w e hA]
  | ok resp => rw [Write_of_ok env h p w resp hA]

/-- The level switch of `Hook.Fire` takes its forwarding branch exactly on the levels
`Hook.Levels` lists. -/
theorem mem_Levels_iff (h : Hook) (l : Level) :
    l ∈ h.Levels ↔ (l = PanicLevel ∨ l = FatalLevel ∨ l = ErrorLevel ∨ l = WarnLevel ∨
      l = InfoLevel ∨ l = DebugLevel) := by
  simp [Hook.Levels]

/-- `Hook.Fire` on an entry whose rendering failed. -/
theorem Fire_of_render_error {σ : Type} (env : Env σ) (h : Hook) (entry : Entry)
    (w : World σ) (line : Bytes) (e : GoError) (hr : entry.rendered = (line, some e)) :
    Hook.Fire env h entry w =
      (some e, h, { w with stderr := w.stderr ++ ["Unable to read entry, " ++ e.msg] }) := by
  simp [Hook.Fire, hr]

/-- `Hook.Fire` on a rendered entry at a level the switch forwards. -/
theorem Fire_of_registered {σ : Type} (env : Env σ) (h : Hook) (entry : Entry)
    (w : World σ) (line : Bytes) (hr : entry.rendered = (line, none))
    (hl : entry.Level ∈ h.Levels) :
    Hook.Fire env h entry w =
      ((Hook.Write env h line w).1.2, (Hook.Write env h line w).2.1,
        (Hook.Write env h line w).2.2) := by
  rw [mem_Levels_iff] at hl
  simp [Hook.Fire, hr, hl, bytesOf]

/-- `Hook.Fire` on a rendered entry at a level the switch sends to `default`. -/
theorem Fire_of_unregistered {σ : Type} (env : Env σ) (h : Hook) (entry : Entry)
    (w : World σ) (line : Bytes) (hr : entry.rendered = (line, none))
    (hl : entry.Level ∉ h.Levels) :
    Hook.Fire env h entry w = (none, h, w) := by
  rw [mem_Levels_iff] at hl
  simp [Hook.Fire, hr, hl]

theorem writeAll_cons {σ : Type} (env : Env σ) (h : Hook) (w : World σ) (p : Bytes)
    (ps : List Bytes) :
    writeAll env h w (p :: ps) =
      ((Hook.Write env h p w).1 ::
          (writeAll env (Hook.Write env h p w).2.1 (Hook.Write env h p w).2.2 ps).1,
        (writeAll env (Hook.Write env h p w).2.1 (Hook.Write env h p w).2.2 ps).2.1,
        (writeAll env (Hook.Write env h p w).2.1 (Hook.Write env h p w).2.2 ps).2.2) := by
  rfl

/-- The chain of a run of successful appends, by induction on the run: the appends
are the only calls, the first carries the token the hook started with, each later one
the token of the answer before it, and the hook ends with the token of the last
answer. -/
theorem writeAll_chain {σ : Type} (env : Env σ) :
    ∀ (ps : List Bytes) (h : Hook) (w : World σ),
      (∀ r ∈ (writeAll env h w ps).1, r.2 = none) →
      ∃ reqs : List (PutLogEventsInput × PutLogEventsOutput),
        (writeAll env h w ps).2.2.calls =
          w.calls ++ reqs.map (fun x => Call.putLogEvents x.1 (Except.ok x.2)) ∧
        reqs.length = ps.length ∧
        (∀ x, reqs.head? = some x → x.1.SequenceToken = h.nextSequenceToken) ∧
        (∀ k x y, reqs[k]? = some x → reqs[k + 1]? = some y →
          y.1.SequenceToken = x.2.NextSequenceToken) ∧
        (reqs = [] → (writeAll env h w ps).2.1.nextSequenceToken = h.nextSequenceToken) ∧
        (∀ x, reqs.getLast? = some x →
          (writeAll env h w ps).2.1.nextSequenceToken = x.2.NextSequenceToken) := by
  intro ps
  induction ps with
  | nil =>
    intro h w _
    refine ⟨[], ?_, rfl, ?_, ?_, ?_, ?_⟩
    · simp [writeAll]
    · intro x hx; simp at hx
    · intro k x y hx; simp at hx
    · intro _; rfl
    · intro x hx; simp at hx
  | cons p ps ih =>
    intro h w hok
    rw [writeAll_cons] at hok ⊢
    have hhead : (Hook.Write env h p w).1.2 = none := hok _ (List.mem_cons_self _ _)
    obtain ⟨resp, hresp⟩ := (Write_err_none_iff env h p w).1 hhead
    have hW := Write_of_ok env h p w resp hresp
    rw [hW] at hok ⊢
    obtain ⟨reqs, hcalls, hlen, hfirst, hstep, hnil, hlast⟩ :=
      ih _ _ (fun r hr => hok r (List.mem_cons_of_mem _ hr))
    refine ⟨(h.params p (env.UnixNano w.remote).1, resp) :: reqs, ?_, ?_, ?_, ?_, ?_, ?_⟩
    · simp only [hcalls, List.map_cons, List.append_assoc, List.singleton_append]
    · simp [hlen]
    · intro x hx
      simp only [List.head?_cons, Option.some.injEq] at hx
      subst hx
      rfl
    · intro k x y hx hy
      cases k with
      | zero =>
        simp only [List.getElem?_cons_zero, Option.some.injEq] at hx
        simp only [zero_add, List.getElem?_cons_succ] at hy
        subst hx
        have := hfirst y (by rw [List.head?_eq_getElem?]; exact hy)
        simpa using this
      | succ k =>
        simp only [List.getElem?_cons_succ] at hx hy
        exact hstep k x y hx hy
    · intro hc; cases hc
    · intro x hx
      cases reqs with
      | nil =>
        simp only [List.getLast?_singleton, Option.some.injEq] at hx
        subst hx
        exact hnil rfl
      | cons a as =>
        rw [List.getLast?_cons_cons] at hx
        exact hlast x hx

/-! ## The append (`Hook.Write`) -/

/-- C2 (failure non-mutation): when the append made by `h.Write(p)` fails with error
`e`, `Write` returns `(0, e)` with `e` as the service gave it, and the hook, its stored
token included, is what it was before the call. -/
theorem Write_failure_non_mutation {σ : Type} (env : Env σ) (h : Hook) (p : Bytes)
    (w : World σ) (e : GoError) (hfail : putAnswer env h p w = Except.error e) :
    (Hook.Write env h p w).1 = (0, some e) ∧
    (Hook.Write env h p w).2.1.nextSequenceToken = h.nextSequenceToken ∧
    (Hook.Write env h p w).2.1 = h := by
  rw [Write_of_error env h p w e hfail]
  exact ⟨rfl, rfl, rfl⟩

/-- C7 (byte count): when the append made by `h.Write(p)` succeeds, `Write` returns
`(len(p), nil)`, for every `p`, the empty one included. -/
theorem Write_byte_count {σ : Type} (env : Env σ) (h : Hook) (p : Bytes) (w : World σ)
    (resp : PutLogEventsOutput) (hok : putAnswer env h p w = Except.ok resp) :
    (Hook.Write env h p w).1 = ((p.length : Int), none) := by
  rw [Write_of_ok env h p w resp hok]

/-- C10 (millisecond timestamp): every call `h.Write(p)` issues one request, holding
exactly one log event, whose message is `p` and whose timestamp, for a clock reading
`n` with `0 ≤ n < 2^63` nanoseconds, is `floor(n / 1000000)`; the intermediate product
`int64(time.Nanosecond) * n` stays inside the 64-bit range. -/
theorem Write_millisecond_timestamp {σ : Type} (env : Env σ) (h : Hook) (p : Bytes)
    (w : World σ) (n : Int) (hn : (env.UnixNano w.remote).1 = n) (h0 : 0 ≤ n)
    (h63 : n < 2 ^ 63) :
    (∃ res, (Hook.Write env h p w).2.2.calls = w.calls ++ [Call.putLogEvents
        { LogEvents := [{ Message := some p, Timestamp := some ⌊(n : ℚ) / 1000000⌋ }]
          LogGroupName := some h.groupName
          LogStreamName := some h.streamName
          SequenceToken := h.nextSequenceToken } res]) ∧
    timestampOf n = ⌊(n : ℚ) / 1000000⌋ ∧
    (-(2 ^ 63) ≤ time_Nanosecond * n ∧ time_Nanosecond * n < 2 ^ 63) ∧
    int64Mul time_Nanosecond n = time_Nanosecond * n := by
  have hfloor : ⌊(n : ℚ) / 1000000⌋ = n / 1000000 := by
    have := Rat.floor_intCast_div_natCast n 1000000
    simpa using this
  have hts : timestampOf n = ⌊(n : ℚ) / 1000000⌋ := by
    rw [hfloor]; exact timestampOf_nonneg n h0 h63
  refine ⟨⟨putAnswer env h p w, ?_⟩, hts, ?_, ?_⟩
  · rw [Write_calls, hn, ← hts]
    rfl
  · unfold time_Nanosecond
    omega
  · unfold int64Mul time_Nanosecond
    rw [one_mul]
    exact wrapInt64_of_range n (by omega) h63

/-- C1 (token chaining): in a run of `N ≥ 1` calls of `Write` through one hook that
all succeed, the calls issued are exactly `N` appends; the first carries the token the
hook stored at construction (none for a fresh stream), call `k + 1` carries exactly
the next sequence token of the answer to call `k` (none if that answer had none), and
the hook ends up storing the token of the last answer. -/
theorem Write_token_chaining {σ : Type} (env : Env σ) (h : Hook) (w : World σ)
    (ps : List Bytes) (hN : 1 ≤ ps.length)
    (hok : ∀ r ∈ (writeAll env h w ps).1, r.2 = none) :
    ∃ reqs : List (PutLogEventsInput × PutLogEventsOutput),
      (writeAll env h w ps).2.2.calls =
        w.calls ++ reqs.map (fun x => Call.putLogEvents x.1 (Except.ok x.2)) ∧
      reqs.length = ps.length ∧
      reqs.head?.map (fun x => x.1.SequenceToken) = some h.nextSequenceToken ∧
      (∀ k x y, reqs[k]? = some x → reqs[k + 1]? = some y →
        y.1.SequenceToken = x.2.NextSequenceToken) ∧
      reqs.getLast?.map (fun x => x.2.NextSequenceToken) =
        some (writeAll env h w ps).2.1.nextSequenceToken := by
  obtain ⟨reqs, hcalls, hlen, hfirst, hstep, _, hlast⟩ := writeAll_chain env ps h w hok
  refine ⟨reqs, hcalls, hlen, ?_, hstep, ?_⟩
  · cases reqs with
    | nil => simp at hlen; omega
    | cons a as => simpa using hfirst a rfl
  · cases hl : reqs.getLast? with
    | none =>
      rw [List.getLast?_eq_none_iff] at hl
      subst hl
      simp at hlen; omega
    | some x => simpa using (hlast x hl).symm

/-! ## Construction (`NewHook`) -/

/-- C3 (fresh stream): when the stream query succeeds with no streams and the create
call succeeds, `NewHook(g, s)` issues, after the query, exactly one create call, for
group `g` and stream `s`, and returns a hook with no stored token, so that a first
`Write` through it sends a request without sequence token. -/
theorem NewHook_fresh_stream {σ : Type} (env : Env σ) (g s : String) (w : World σ)
    (out : DescribeLogStreamsOutput) (s1 s2 : σ)
    (hd : env.DescribeLogStreams { LogGroupName := some g, LogStreamNamePrefix := some s }
      w.remote = (Except.ok out, s1))
    (hempty : out.LogStreams = [])
    (hc : env.CreateLogStream { LogGroupName := some g, LogStreamName := some s } s1 =
      (none, s2)) :
    (NewHook env g s w).1 =
      (some { groupName := g, streamName := s, nextSequenceToken := none }, none) ∧
    (NewHook env g s w).2.calls = w.calls ++
      [Call.describeLogStreams { LogGroupName := some g, LogStreamNamePrefix := some s }
          (Except.ok out),
        Call.createLogStream { LogGroupName := some g, LogStreamName := some s } none] ∧
    ∀ h, (NewHook env g s w).1.1 = some h → ∀ (p : Bytes) (w2 : World σ),
      ∃ inp res, (Hook.Write env h p w2).2.2.calls = w2.calls ++ [Call.putLogEvents inp res] ∧
        inp.SequenceToken = none := by
  have hN : NewHook env g s w =
      ((some { groupName := g, streamName := s, nextSequenceToken := none }, none),
        { w with
          remote := s2
          calls := w.calls ++
            [Call.describeLogStreams { LogGroupName := some g, LogStreamNamePrefix := some s }
                (Except.ok out),
              Call.createLogStream { LogGroupName := some g, LogStreamName := some s }
                none] }) := by
    simp [NewHook, aws_String, hd, hempty, hc]
  rw [hN]
  refine ⟨rfl, rfl, ?_⟩
  intro h hh p w2
  simp only [Option.some.injEq] at hh
  subst hh
  exact ⟨_, _, Write_calls env _ p w2, rfl⟩

/-- C4 (existing stream): when the stream query succeeds with a non-empty list,
`NewHook(g, s)` issues no create call (the query is its only call) and returns a hook
whose stored token is the upload sequence token of the first stream of the list,
absent when that stream has none, whatever that stream is called. -/
theorem NewHook_existing_stream {σ : Type} (env : Env σ) (g s : String) (w : World σ)
    (out : DescribeLogStreamsOutput) (s1 : σ) (first : LogStream) (rest : List LogStream)
    (hd : env.DescribeLogStreams { LogGroupName := some g, LogStreamNamePrefix := some s }
      w.remote = (Except.ok out, s1))
    (hne : out.LogStreams = first :: rest) :
    (NewHook env g s w).1 =
      (some { groupName := g, streamName := s,
              nextSequenceToken := first.UploadSequenceToken }, none) ∧
    (NewHook env g s w).2.calls = w.calls ++
      [Call.describeLogStreams { LogGroupName := some g, LogStreamNamePrefix := some s }
        (Except.ok out)] := by
  simp [NewHook, aws_String, hd, hne]

/-- C9 (resolution failure): when the stream query fails with `e`, `NewHook(g, s)`
returns `(nil, e)` and issues no create call; when the query succeeds with no streams
and the create call fails with `e`, `NewHook(g, s)` returns `(nil, e)`.  Neither case
returns a hook. -/
theorem NewHook_resolution_failure {σ : Type} (env : Env σ) (g s : String) (w : World σ)
    (e : GoError) :
    (∀ s1, env.DescribeLogStreams { LogGroupName := some g, LogStreamNamePrefix := some s }
        w.remote = (Except.error e, s1) →
      (NewHook env g s w).1 = (none, some e) ∧
      (NewHook env g s w).2.calls = w.calls ++
        [Call.describeLogStreams { LogGroupName := some g, LogStreamNamePrefix := some s }
          (Except.error e)]) ∧
    (∀ out s1 s2,
      env.DescribeLogStreams { LogGroupName := some g, LogStreamNamePrefix := some s }
        w.remote = (Except.ok out, s1) →
      out.LogStreams = [] →
      env.CreateLogStream { LogGroupName := some g, LogStreamName := some s } s1 =
        (some e, s2) →
      (NewHook env g s w).1 = (none, some e)) := by
  constructor
  · intro s1 hd
    simp [NewHook, aws_String, hd]
  · intro out s1 s2 hd hempty hc
    simp [NewHook, aws_String, hd, hempty, hc]

/-! ## Firing (`Hook.Fire`, `WriterHook.Fire`) -/

/-- C8 (render failure): for an entry at any level whose rendering fails with `e`,
`Hook.Fire` returns `e`, issues no call at all (so no append), and leaves the hook,
its stored token included, as it was; the failure is printed to standard error. -/
theorem Fire_render_failure {σ : Type} (env : Env σ) (h : Hook) (entry : Entry)
    (w : World σ) (e : GoError) (hr : entry.rendered.2 = some e) :
    (Hook.Fire env h entry w).1 = some e ∧
    (Hook.Fire env h entry w).2.2.calls = w.calls ∧
    (Hook.Fire env h entry w).2.1.nextSequenceToken = h.nextSequenceToken ∧
    (Hook.Fire env h entry w).2.1 = h ∧
    (Hook.Fire env h entry w).2.2.remote = w.remote ∧
    (Hook.Fire env h entry w).2.2.stderr = w.stderr ++ ["Unable to read entry, " ++ e.msg] := by
  have hr2 : entry.rendered = (entry.rendered.1, some e) := by
    rw [← hr]
  rw [Fire_of_render_error env h entry w _ e hr2]
  exact ⟨rfl, rfl, rfl, rfl, rfl, rfl⟩

/-- C5, as stated, fails: the entry at level 6 (not one of the six) whose rendering
fails makes `Hook.Fire` return that error, not nil. -/
theorem Fire_unregistered_level_error :
    (6 : Level) ∉ Hook.Levels freshHook ∧
    (Hook.Fire scripted freshHook
      { Level := 6, rendered := ([], some { msg := "render failed" }) }
      (World.start emptyScript)).1 = some { msg := "render failed" } := by
  constructor
  · decide
  · rfl

/-- C5 (level membership), amended: an entry at one of the six registered levels whose
rendering succeeds is forwarded to `Write` exactly once (one append, carrying the
rendered line) and `Fire` returns the error `Write` returns; an entry at any other
level causes no call and leaves the hook untouched, and `Fire` returns the rendering
error, which is nil when the rendering succeeds. -/
theorem Fire_level_membership {σ : Type} (env : Env σ) (h : Hook) (entry : Entry)
    (w : World σ) :
    (entry.Level ∈ h.Levels → entry.rendered.2 = none →
      Hook.Fire env h entry w =
        ((Hook.Write env h entry.rendered.1 w).1.2, (Hook.Write env h entry.rendered.1 w).2.1,
          (Hook.Write env h entry.rendered.1 w).2.2) ∧
      ∃ ts res, (Hook.Fire env h entry w).2.2.calls = w.calls ++ [Call.putLogEvents
        { LogEvents := [{ Message := some entry.rendered.1, Timestamp := some ts }]
          LogGroupName := some h.groupName
          LogStreamName := some h.streamName
          SequenceToken := h.nextSequenceToken } res]) ∧
    (entry.Level ∉ h.Levels →
      (Hook.Fire env h entry w).2.2.calls = w.calls ∧
      (Hook.Fire env h entry w).2.1 = h ∧
      (Hook.Fire env h entry w).1 = entry.rendered.2 ∧
      (entry.rendered.2 = none → (Hook.Fire env h entry w).1 = none)) := by
  constructor
  · intro hl hr
    have hr2 : entry.rendered = (entry.rendered.1, none) := by rw [← hr]
    rw [Fire_of_registered env h entry w _ hr2 hl]
    exact ⟨rfl, _, _, Write_calls env h _ w⟩
  · intro hl
    cases hr : entry.rendered.2 with
    | none =>
      have hr2 : entry.rendered = (entry.rendered.1, none) := by rw [← hr]
      rw [Fire_of_unregistered env h entry w _ hr2 hl]
      exact ⟨rfl, rfl, rfl, fun _ => rfl⟩
    | some e =>
      have hr2 : entry.rendered = (entry.rendered.1, some e) := by rw [← hr]
      rw [Fire_of_render_error env h entry w _ e hr2]
      refine ⟨rfl, rfl, rfl, fun hc => ?_⟩
      cases hc

/-- C6, as stated, fails: for the rendered entry at level 6 (not one of the six),
`Hook.Fire` forwards nothing while `WriterHook.Fire` writes the line to its sink. -/
theorem WriterHook_Fire_unregistered_level_written :
    (6 : Level) ∉ WriterHook.Levels (NewWriterHook countingSink) ∧
    (Hook.Fire scripted freshHook { Level := 6, rendered := ([104, 105], none) }
      (World.start emptyScript)).2.2.calls = [] ∧
    (WriterHook.Fire (NewWriterHook countingSink)
      { Level := 6, rendered := ([104, 105], none) } (World.start 0)).2.calls =
        [Call.write [104, 105] 2 none] ∧
    (WriterHook.Fire (NewWriterHook countingSink)
      { Level := 6, rendered := ([104, 105], none) } (World.start 0)).2.remote = 2 := by
  refine ⟨by decide, rfl, rfl, rfl⟩

/-- C6, amended: the writer hook lists the same six levels as the hook, and for every
entry whose rendering succeeds `WriterHook.Fire` writes the rendered line to its sink
exactly once and returns the sink's error, whatever the level of the entry; at each of
the six registered levels `Hook.Fire` forwards the same line to its appender. -/
theorem WriterHook_Fire_passthrough {σ τ : Type} (wh : WriterHook τ) (env : Env σ)
    (h : Hook) (entry : Entry) (v : World τ) (w : World σ)
    (hr : entry.rendered.2 = none) :
    wh.Levels = h.Levels ∧
    (WriterHook.Fire wh entry v).1 = (wh.w entry.rendered.1 v.remote).1.2 ∧
    (WriterHook.Fire wh entry v).2.calls = v.calls ++
      [Call.write entry.rendered.1 (wh.w entry.rendered.1 v.remote).1.1
        (wh.w entry.rendered.1 v.remote).1.2] ∧
    (WriterHook.Fire wh entry v).2.remote = (wh.w entry.rendered.1 v.remote).2 ∧
    (entry.Level ∈ h.Levels →
      ∃ ts res, (Hook.Fire env h entry w).2.2.calls = w.calls ++ [Call.putLogEvents
        { LogEvents := [{ Message := some entry.rendered.1, Timestamp := some ts }]
          LogGroupName := some h.groupName
          LogStreamName := some h.streamName
          SequenceToken := h.nextSequenceToken } res]) := by
  have hr2 : entry.rendered = (entry.rendered.1, none) := by rw [← hr]
  refine ⟨rfl, ?_, ?_, ?_, ?_⟩
  · unfold WriterHook.Fire
    rw [hr2]
    rfl
  · unfold WriterHook.Fire
    rw [hr2]
    rfl
  · unfold WriterHook.Fire
    rw [hr2]
    rfl
  · intro hl
    rw [Fire_of_registered env h entry w _ hr2 hl]
    exact ⟨_, _, Write_calls env h _ w⟩

/-! ## Concrete runs -/

/-- Two successful appends, "hello" then "world", through a hook on a fresh stream. -/
theorem Write_token_chaining_witness :
    ∃ reqs : List (PutLogEventsInput × PutLogEventsOutput),
      (writeAll scripted freshHook (World.start twoAppends) [hello, world]).2.2.calls =
        (World.start twoAppends).calls ++
          reqs.map (fun x => Call.putLogEvents x.1 (Except.ok x.2)) ∧
      reqs.length = [hello, world].length ∧
      reqs.head?.map (fun x => x.1.SequenceToken) = some freshHook.nextSequenceToken ∧
      (∀ k x y, reqs[k]? = some x → reqs[k + 1]? = some y →
        y.1.SequenceToken = x.2.NextSequenceToken) ∧
      reqs.getLast?.map (fun x => x.2.NextSequenceToken) =
        some (writeAll scripted freshHook (World.start twoAppends)
          [hello, world]).2.1.nextSequenceToken :=
  Write_token_chaining scripted freshHook (World.start twoAppends) [hello, world]
    (by decide) (by decide)

/-- A rejected append through a hook storing "tok1". -/
theorem Write_failure_non_mutation_witness :
    (Hook.Write scripted chainedHook hello (World.start rejectedAppend)).1 =
      (0, some { msg := "InvalidSequenceTokenException" }) ∧
    (Hook.Write scripted chainedHook hello (World.start rejectedAppend)).2.1.nextSequenceToken =
      chainedHook.nextSequenceToken ∧
    (Hook.Write scripted chainedHook hello (World.start rejectedAppend)).2.1 = chainedHook :=
  Write_failure_non_mutation scripted chainedHook hello (World.start rejectedAppend)
    { msg := "InvalidSequenceTokenException" } rfl

/-- An accepted append of the five bytes of "hello". -/
theorem Write_byte_count_witness :
    (Hook.Write scripted chainedHook hello (World.start twoAppends)).1 = (5, none) :=
  Write_byte_count scripted chainedHook hello (World.start twoAppends)
    { NextSequenceToken := some "49f-token2" } rfl

/-- An append at clock reading 1700000000123456789 ns. -/
theorem Write_millisecond_timestamp_witness :
    (0 : Int) ≤ 1700000000123456789 ∧ (1700000000123456789 : Int) < 2 ^ 63 ∧
    timestampOf 1700000000123456789 = ⌊((1700000000123456789 : Int) : ℚ) / 1000000⌋ :=
  ⟨by norm_num, by norm_num,
    (Write_millisecond_timestamp scripted chainedHook hello (World.start twoAppends)
      1700000000123456789 rfl (by norm_num) (by norm_num)).2.1⟩

/-- Construction against group "svc" without streams. -/
theorem NewHook_fresh_stream_witness :
    (NewHook scripted "svc" "app-1" (World.start emptyScript)).1 = (some freshHook, none) ∧
    (NewHook scripted "svc" "app-1" (World.start emptyScript)).2.calls =
      [Call.describeLogStreams
          { LogGroupName := some "svc", LogStreamNamePrefix := some "app-1" }
          (Except.ok { LogStreams := [] }),
        Call.createLogStream { LogGroupName := some "svc", LogStreamName := some "app-1" }
          none] :=
  ⟨(NewHook_fresh_stream scripted "svc" "app-1" (World.start emptyScript)
      { LogStreams := [] } emptyScript emptyScript rfl rfl rfl).1,
    (NewHook_fresh_stream scripted "svc" "app-1" (World.start emptyScript)
      { LogStreams := [] } emptyScript emptyScript rfl rfl rfl).2.1⟩

/-- Construction against a group where the query returns "app-10" first. -/
theorem NewHook_existing_stream_witness :
    (NewHook scripted "svc" "app-1" (World.start existingStreams)).1 =
      (some { groupName := "svc", streamName := "app-1",
              nextSequenceToken := some "tok-of-app-10" }, none) :=
  (NewHook_existing_stream scripted "svc" "app-1" (World.start existingStreams)
    { LogStreams :=
      [{ LogStreamName := some "app-10", UploadSequenceToken := some "tok-of-app-10" },
       { LogStreamName := some "app-1", UploadSequenceToken := some "tok-of-app-1" }] }
    existingStreams
    { LogStreamName := some "app-10", UploadSequenceToken := some "tok-of-app-10" }
    [{ LogStreamName := some "app-1", UploadSequenceToken := some "tok-of-app-1" }]
    rfl rfl).1

/-- Construction when the query fails, and when the create call fails. -/
theorem NewHook_resolution_failure_witness :
    (NewHook scripted "svc" "app-1" (World.start queryFails)).1 =
      (none, some { msg := "ResourceNotFoundException" }) ∧
    (NewHook scripted "svc" "app-1" (World.start queryFails)).2.calls =
      (World.start queryFails).calls ++
        [Call.describeLogStreams
          { LogGroupName := some "svc", LogStreamNamePrefix := some "app-1" }
          (Except.error { msg := "ResourceNotFoundException" })] ∧
    (NewHook scripted "svc" "app-1" (World.start createFails)).1 =
      (none, some { msg := "LimitExceededException" }) :=
  ⟨((NewHook_resolution_failure scripted "svc" "app-1" (World.start queryFails)
      { msg := "ResourceNotFoundException" }).1 queryFails rfl).1,
    ((NewHook_resolution_failure scripted "svc" "app-1" (World.start queryFails)
      { msg := "ResourceNotFoundException" }).1 queryFails rfl).2,
    (NewHook_resolution_failure scripted "svc" "app-1" (World.start createFails)
      { msg := "LimitExceededException" }).2 { LogStreams := [] } createFails createFails
      rfl rfl rfl⟩

/-- An entry at the info level whose rendering fails. -/
theorem Fire_render_failure_witness :
    (Hook.Fire scripted chainedHook
      { Level := InfoLevel, rendered := ([], some { msg := "render failed" }) }
      (World.start twoAppends)).1 = some { msg := "render failed" } ∧
    (Hook.Fire scripted chainedHook
      { Level := InfoLevel, rendered := ([], some { msg := "render failed" }) }
      (World.start twoAppends)).2.2.calls = (World.start twoAppends).calls :=
  ⟨(Fire_render_failure scripted chainedHook
      { Level := InfoLevel, rendered := ([], some { msg := "render failed" }) }
      (World.start twoAppends) { msg := "render failed" } rfl).1,
    (Fire_render_failure scripted chainedHook
      { Level := InfoLevel, rendered := ([], some { msg := "render failed" }) }
      (World.start twoAppends) { msg := "render failed" } rfl).2.1⟩

/-- A rendered entry at the warning level is forwarded; one at level 6 is not. -/
theorem Fire_level_membership_witness :
    Hook.Fire scripted chainedHook { Level := WarnLevel, rendered := (hello, none) }
        (World.start twoAppends) =
      ((Hook.Write scripted chainedHook hello (World.start twoAppends)).1.2,
        (Hook.Write scripted chainedHook hello (World.start twoAppends)).2.1,
        (Hook.Write scripted chainedHook hello (World.start twoAppends)).2.2) ∧
    (Hook.Fire scripted chainedHook { Level := 6, rendered := (hello, none) }
        (World.start twoAppends)).2.2.calls = (World.start twoAppends).calls ∧
    (Hook.Fire scripted chainedHook { Level := 6, rendered := (hello, none) }
        (World.start twoAppends)).1 = none :=
  ⟨((Fire_level_membership scripted chainedHook
        { Level := WarnLevel, rendered := (hello, none) } (World.start twoAppends)).1
      (by decide) rfl).1,
    ((Fire_level_membership scripted chainedHook
        { Level := 6, rendered := (hello, none) } (World.start twoAppends)).2
      (by decide)).1,
    ((Fire_level_membership scripted chainedHook
        { Level := 6, rendered := (hello, none) } (World.start twoAppends)).2
      (by decide)).2.2.1⟩

/-- A rendered entry at the debug level, written to the counting sink. -/
theorem WriterHook_Fire_passthrough_witness :
    (WriterHook.Fire (NewWriterHook countingSink)
      { Level := DebugLevel, rendered := (hello, none) } (World.start 0)).2.calls =
        (World.start 0).calls ++ [Call.write hello 5 none] :=
  (WriterHook_Fire_passthrough (NewWriterHook countingSink) scripted chainedHook
    { Level := DebugLevel, rendered := (hello, none) } (World.start 0)
    (World.start twoAppends) rfl).2.2.1

end LogrusCloudwatchlogs
